import Mathlib

/-!
Verification development for the AptosDeFiHub rebalancing engine.

This file shallowly embeds the decision logic of the repository's core
functions in Lean 4 and proves properties about them:

* the needs-rebalancing classifier `filterInactivePositions`
  (src read module, `filterInactivePositions`),
* the pool-config lookup used by that classifier
  (src `config/pools.ts`, `getPoolConfigsForFilter`),
* the rebalancing orchestrator `executeRebalancing`
  (src `rebalanceExecution.ts`),
* the allocation binary search `getCreatePoolPayload`
  (src `createPool.ts`) and the add-liquidity final validation
  (src `addLiquidity.ts`),
* the optimal-ratio calculation `calculateOptimalRatioData`
  (src read module),
* the transaction dedup cooldown (src `executeTransaction.ts`),
* the batch controller counting behaviour (src `rebalancingFlow`,
  `executeRebalancingFlow`).

JavaScript floating-point numbers are modelled as exact rationals (`ℚ`);
`Math.floor` is `Int.floor`.  Remote oracles (the Hyperion SDK calls) are
modelled as explicit function parameters; code paths that can throw are
modelled with `Except`/`Option` values supplied as inputs.
-/

/-! ### Position classifier (`filterInactivePositions`)

The source iterates over positions; for each one it looks up the pool
config (case-insensitive pool-id comparison), converts `sqrtPrice` to a
price, fetches the position's token amounts (inner `try`: on failure the
position is skipped with `continue`), computes each token's percentage
share of position value in token2 terms, and flags the position according
to the `rangePercent` policy.  Any other failure inside the outer `try`
falls back to flagging the position exactly when it is inactive. -/

/-- Lower-casing of a string, used to model JavaScript's
`String.prototype.toLowerCase()` on pool ids (ASCII identifiers). -/
def strLower (s : String) : String := ⟨s.data.map Char.toLower⟩

/-- One entry of the pool-config list handed to the filter
(`getPoolConfigsForFilter` output): `rangePercent = none` models `null`
(tightest range), `some r` models a numeric percentage. -/
structure FilterPoolConfig where
  poolId : String
  rangePercent : Option ℚ
deriving DecidableEq, Repr

/-- Token metadata carried by a pool snapshot (`token1Info`/`token2Info`). -/
structure TokenInfo where
  symbol : String
  decimals : ℕ
deriving DecidableEq, Repr

/-- Pool snapshot fields used by the classifier. -/
structure PoolSnapshot where
  poolId : String
  currentTick : ℤ
  sqrtPrice : ℚ
  token1Info : TokenInfo
  token2Info : TokenInfo
deriving DecidableEq, Repr

/-- Outcome of the per-position token-amount fetch
(`sdk.Position.fetchTokensAmountByPositionId`) together with the other
failure mode of the surrounding analysis code:
`success t1 t2` = the fetch returned raw amounts `[t1, t2]`;
`fetchThrew` = the fetch threw (the inner `catch`, which `continue`s);
`analysisThrew` = some other statement of the outer `try` threw
(the outer `catch`, which falls back to the inactive test). -/
inductive FetchOutcome where
  | success (token1Raw token2Raw : ℚ)
  | fetchThrew
  | analysisThrew
deriving DecidableEq, Repr

/-- A position as seen by the classifier (`pos.position` fields), with the
fetch outcome for this position supplied as data. -/
structure HyperionPosition where
  objectId : String
  tickLower : ℤ
  tickUpper : ℤ
  pool : PoolSnapshot
  fetch : FetchOutcome
deriving DecidableEq, Repr

/-- Price derived from the pool's fixed-point square-root price:
`price = (sqrtPrice / 2^64)^2 * 10^(dec1 - dec2)`
(the possibly-negative exponent is written as a quotient of powers). -/
def poolPrice (pool : PoolSnapshot) : ℚ :=
  (pool.sqrtPrice / 2 ^ 64) ^ 2 *
    (10 ^ pool.token1Info.decimals / 10 ^ pool.token2Info.decimals)

/-- Raw token1 amount scaled to token units (`t1 / 10 ** decimals`). -/
def token1Amount (pool : PoolSnapshot) (token1Raw : ℚ) : ℚ :=
  token1Raw / 10 ^ pool.token1Info.decimals

/-- Raw token2 amount scaled to token units (`t2 / 10 ** decimals`). -/
def token2Amount (pool : PoolSnapshot) (token2Raw : ℚ) : ℚ :=
  token2Raw / 10 ^ pool.token2Info.decimals

/-- Percentage share of token1's value in the position's total value
(valued in token2 terms); `0` when the total value is not positive,
mirroring `totalValueInToken2 > 0 ? ... : 0`. -/
def pctToken1 (amount1 amount2 price : ℚ) : ℚ :=
  let valueToken1InToken2 := amount1 * price
  let totalValueInToken2 := valueToken1InToken2 + amount2
  if totalValueInToken2 > 0 then valueToken1InToken2 / totalValueInToken2 * 100 else 0

/-- Percentage share of token2's value in the position's total value. -/
def pctToken2 (amount1 amount2 price : ℚ) : ℚ :=
  let valueToken1InToken2 := amount1 * price
  let totalValueInToken2 := valueToken1InToken2 + amount2
  if totalValueInToken2 > 0 then amount2 / totalValueInToken2 * 100 else 0

/-- The classifier's pool-config lookup
`poolConfigs?.find(c => c.poolId.toLowerCase() === pool.poolId.toLowerCase())?.rangePercent`.
The outer `Option` distinguishes `undefined` (no config list, or no entry
found) from the inner `Option` distinguishing `null` from a number. -/
def lookupRangePercent (poolConfigs : Option (List FilterPoolConfig))
    (poolId : String) : Option (Option ℚ) :=
  (poolConfigs.bind fun cfgs =>
    cfgs.find? fun c => strLower c.poolId == strLower poolId).map
      fun c => c.rangePercent

/-- Activity test: `tickLower < currentTick && currentTick < tickUpper`. -/
def isActivePosition (pos : HyperionPosition) : Prop :=
  pos.tickLower < pos.pool.currentTick ∧ pos.pool.currentTick < pos.tickUpper

instance (pos : HyperionPosition) : Decidable (isActivePosition pos) :=
  inferInstanceAs (Decidable (_ ∧ _))

/-- Per-position body of the classifier loop: `true` exactly when the loop
pushes the position onto `positionsToRebalance`. -/
def positionShouldFlag (poolConfigs : Option (List FilterPoolConfig))
    (pos : HyperionPosition) : Bool :=
  match pos.fetch with
  | .fetchThrew => false
  | .analysisThrew => if isActivePosition pos then false else true
  | .success token1Raw token2Raw =>
    let rangePercent := lookupRangePercent poolConfigs pos.pool.poolId
    let price := poolPrice pos.pool
    let amount1 := token1Amount pos.pool token1Raw
    let amount2 := token2Amount pos.pool token2Raw
    let p1 := pctToken1 amount1 amount2 price
    let p2 := pctToken2 amount1 amount2 price
    if rangePercent = some none then
      if ¬ isActivePosition pos then true
      else if p1 = 0 ∨ p2 = 0 then true
      else false
    else
      if p1 < 10 ∨ p2 < 10 then true else false

/-- The classifier over a list of positions: keeps exactly the positions
the loop pushes onto `positionsToRebalance`, in order. -/
def filterInactivePositions (poolConfigs : Option (List FilterPoolConfig)) :
    List HyperionPosition → List HyperionPosition
  | [] => []
  | pos :: rest =>
    if positionShouldFlag poolConfigs pos then
      pos :: filterInactivePositions poolConfigs rest
    else
      filterInactivePositions poolConfigs rest

theorem filterInactivePositions_singleton
    (poolConfigs : Option (List FilterPoolConfig)) (pos : HyperionPosition) :
    filterInactivePositions poolConfigs [pos] = [pos] ↔
      positionShouldFlag poolConfigs pos = true := by
  simp only [filterInactivePositions]
  constructor
  · intro h
    by_contra hflag
    rw [if_neg (by simpa using hflag)] at h
    exact List.noConfusion h
  · intro h
    rw [if_pos h]

/-- C1: with a successfully fetched position, when the looked-up
`rangePercent` is `null` the classifier flags the position exactly when it
is inactive (boundary ticks included) or one token's value share is
exactly 0%; when `rangePercent` is a number it flags exactly when one
token's value share is strictly below 10%. -/
theorem claim_C1_classifier_policy
    (poolConfigs : Option (List FilterPoolConfig)) (pos : HyperionPosition)
    (token1Raw token2Raw : ℚ)
    (hfetch : pos.fetch = .success token1Raw token2Raw) :
    (lookupRangePercent poolConfigs pos.pool.poolId = some none →
      (filterInactivePositions poolConfigs [pos] = [pos] ↔
        (¬ (pos.tickLower < pos.pool.currentTick ∧
              pos.pool.currentTick < pos.tickUpper) ∨
          pctToken1 (token1Amount pos.pool token1Raw)
            (token2Amount pos.pool token2Raw) (poolPrice pos.pool) = 0 ∨
          pctToken2 (token1Amount pos.pool token1Raw)
            (token2Amount pos.pool token2Raw) (poolPrice pos.pool) = 0))) ∧
    (∀ r : ℚ, lookupRangePercent poolConfigs pos.pool.poolId = some (some r) →
      (filterInactivePositions poolConfigs [pos] = [pos] ↔
        (pctToken1 (token1Amount pos.pool token1Raw)
            (token2Amount pos.pool token2Raw) (poolPrice pos.pool) < 10 ∨
          pctToken2 (token1Amount pos.pool token1Raw)
            (token2Amount pos.pool token2Raw) (poolPrice pos.pool) < 10))) := by
  refine ⟨fun hnull => ?_, fun r hr => ?_⟩
  · rw [filterInactivePositions_singleton]
    simp only [positionShouldFlag, hfetch]
    rw [if_pos (by rw [hnull])]
    split_ifs with h1 h2 <;> simp_all [isActivePosition]
  · rw [filterInactivePositions_singleton]
    simp only [positionShouldFlag, hfetch]
    rw [if_neg (by simp [hr])]
    split_ifs with h <;> simp_all

/-- Concrete pool config list for witnesses: a single tightest-range pool. -/
def witnessConfigs : Option (List FilterPoolConfig) := some [⟨"0xabc", none⟩]

/-- Concrete active position in the configured pool, with amounts fetched
successfully and `sqrtPrice = 2^64` (price 1). -/
def witnessPosition : HyperionPosition :=
  ⟨"obj1", 100, 200, ⟨"0xabc", 150, 2 ^ 64, ⟨"A", 0⟩, ⟨"B", 0⟩⟩, .success 1 1⟩

/-- Witness instantiating the C1 theorem on a concrete configured pool. -/
theorem claim_C1_classifier_policy_witness :
    filterInactivePositions witnessConfigs [witnessPosition] = [witnessPosition] ↔
      (¬ ((100 : ℤ) < 150 ∧ (150 : ℤ) < 200) ∨
        pctToken1 (token1Amount witnessPosition.pool 1)
          (token2Amount witnessPosition.pool 1) (poolPrice witnessPosition.pool) = 0 ∨
        pctToken2 (token1Amount witnessPosition.pool 1)
          (token2Amount witnessPosition.pool 1) (poolPrice witnessPosition.pool) = 0) :=
  (claim_C1_classifier_policy witnessConfigs witnessPosition 1 1 rfl).1 (by decide)

/-- C7 counterexample position: inactive (currentTick 250 is outside
[100, 200]) and its token-amount fetch throws. -/
def fetchFailPosition : HyperionPosition :=
  ⟨"obj2", 100, 200, ⟨"0xabc", 250, 0, ⟨"A", 0⟩, ⟨"B", 0⟩⟩, .fetchThrew⟩

/-- C7 counterexample: a position whose token-amount fetch throws is
dropped by the classifier even though it is inactive — the claimed
conservative "inactive implies flagged" fallback does not apply to the
token-amount fetch failure (the inner catch runs `continue`). -/
theorem claim_C7_counterexample :
    fetchFailPosition.fetch = FetchOutcome.fetchThrew ∧
      ¬ isActivePosition fetchFailPosition ∧
      filterInactivePositions witnessConfigs [fetchFailPosition] = [] := by
  refine ⟨rfl, by decide, ?_⟩
  rfl

/-- C7 (amended): a token-amount fetch failure makes the classifier skip
that position entirely (`continue`), while any other per-position analysis
failure falls back to flagging the position exactly when it is inactive;
in both cases the remaining positions are still classified — one
position's failure never aborts the batch. -/
theorem claim_C7_read_failure_behaviour
    (poolConfigs : Option (List FilterPoolConfig)) (pos : HyperionPosition)
    (rest : List HyperionPosition) :
    (pos.fetch = FetchOutcome.fetchThrew →
      filterInactivePositions poolConfigs (pos :: rest) =
        filterInactivePositions poolConfigs rest) ∧
    (pos.fetch = FetchOutcome.analysisThrew →
      filterInactivePositions poolConfigs (pos :: rest) =
        (if isActivePosition pos then [] else [pos]) ++
          filterInactivePositions poolConfigs rest) := by
  constructor
  · intro h
    simp only [filterInactivePositions, positionShouldFlag, h]
    rw [if_neg (by simp)]
  · intro h
    simp only [filterInactivePositions, positionShouldFlag, h]
    by_cases hact : isActivePosition pos
    · rw [if_neg (by simp [hact]), if_pos hact, List.nil_append]
    · rw [if_pos (by simp [hact]), if_neg hact, List.cons_append, List.nil_append]

/-- C7 amended-claim witness: the skip behaviour and the fallback
behaviour, instantiated on concrete positions. -/
theorem claim_C7_read_failure_behaviour_witness :
    (filterInactivePositions witnessConfigs [fetchFailPosition] =
      filterInactivePositions witnessConfigs []) ∧
    (filterInactivePositions witnessConfigs
        [⟨"obj3", 100, 200, ⟨"0xabc", 250, 0, ⟨"A", 0⟩, ⟨"B", 0⟩⟩, .analysisThrew⟩] =
      (if isActivePosition
          ⟨"obj3", 100, 200, ⟨"0xabc", 250, 0, ⟨"A", 0⟩, ⟨"B", 0⟩⟩, .analysisThrew⟩
        then []
        else [⟨"obj3", 100, 200, ⟨"0xabc", 250, 0, ⟨"A", 0⟩, ⟨"B", 0⟩⟩, .analysisThrew⟩]) ++
        filterInactivePositions witnessConfigs []) :=
  ⟨(claim_C7_read_failure_behaviour witnessConfigs fetchFailPosition []).1 rfl,
    (claim_C7_read_failure_behaviour witnessConfigs _ []).2 rfl⟩

/-! ### Pool configuration (`config/pools.ts`) -/

/-- A managed-pool configuration entry.  The TypeScript field
`rangePercent?: number | null` can be absent (`none`), `null`
(`some none`) or a number (`some (some r)`). -/
structure PoolConfig where
  poolId : String
  name : String
  enabled : Bool
  rangePercent : Option (Option ℚ)
deriving DecidableEq, Repr

/-- The default managed pools (single source of truth). -/
def DEFAULT_POOLS_TO_MANAGE : List PoolConfig :=
  [⟨"0xbab8526a9eb7403a444fcc1f73bf02d8f94dafd3c88a02b5736a1a77fafe4169",
      "APT/kAPT", false, some none⟩,
    ⟨"0x925660b8618394809f89f8002e2926600c775221f43bf1919782b297a79400d8",
      "APT/USDC", false, some (some 5)⟩,
    ⟨"0x18269b1090d668fbbc01902fa6a5ac6e75565d61860ddae636ac89741c883cbc",
      "APT/USDT", true, some (some 5)⟩,
    ⟨"0x9878b6f039b1fce27240fd51f536fceefac939268ecaa8dd6c84b7640177abe4",
      "APT/stkAPT", false, some none⟩]

/-- Pool configurations formatted for the filter:
`rangePercent: p.rangePercent ?? null` (an absent field becomes `null`). -/
def getPoolConfigsForFilter : List FilterPoolConfig :=
  DEFAULT_POOLS_TO_MANAGE.map fun p => ⟨p.poolId, p.rangePercent.getD none⟩

/-- C10: when no entry of the supplied config list matches the position's
pool, the looked-up `rangePercent` is `undefined` (outer `none`), not
`null` (`some none`), so the `rangePercent === null` test fails and the
position is classified under the custom-range rule (flagged exactly when a
token's value share is strictly below 10%) rather than the
tightest-range rule. -/
theorem claim_C10_unconfigured_pool_custom_rule
    (cfgs : List FilterPoolConfig) (pos : HyperionPosition)
    (token1Raw token2Raw : ℚ)
    (hfetch : pos.fetch = .success token1Raw token2Raw)
    (hfind : cfgs.find?
      (fun c => strLower c.poolId == strLower pos.pool.poolId) = none) :
    lookupRangePercent (some cfgs) pos.pool.poolId = none ∧
      (filterInactivePositions (some cfgs) [pos] = [pos] ↔
        (pctToken1 (token1Amount pos.pool token1Raw)
            (token2Amount pos.pool token2Raw) (poolPrice pos.pool) < 10 ∨
          pctToken2 (token1Amount pos.pool token1Raw)
            (token2Amount pos.pool token2Raw) (poolPrice pos.pool) < 10)) := by
  have hlook : lookupRangePercent (some cfgs) pos.pool.poolId = none := by
    simp [lookupRangePercent, hfind]
  refine ⟨hlook, ?_⟩
  rw [filterInactivePositions_singleton]
  simp only [positionShouldFlag, hfetch]
  rw [if_neg (by simp [hlook])]
  split_ifs with h <;> simp_all

/-- Position in a pool that is absent from the default managed-pool list. -/
def unconfiguredPosition : HyperionPosition :=
  ⟨"obj4", 100, 200, ⟨"0xdead", 150, 2 ^ 64, ⟨"A", 0⟩, ⟨"B", 0⟩⟩, .success 1 1⟩

/-- C10 witness: the real `getPoolConfigsForFilter` list has no entry for
pool `0xdead`, so that position falls under the custom-range rule. -/
theorem claim_C10_unconfigured_pool_custom_rule_witness :
    lookupRangePercent (some getPoolConfigsForFilter)
        unconfiguredPosition.pool.poolId = none ∧
      (filterInactivePositions (some getPoolConfigsForFilter)
          [unconfiguredPosition] = [unconfiguredPosition] ↔
        (pctToken1 (token1Amount unconfiguredPosition.pool 1)
            (token2Amount unconfiguredPosition.pool 1)
            (poolPrice unconfiguredPosition.pool) < 10 ∨
          pctToken2 (token1Amount unconfiguredPosition.pool 1)
            (token2Amount unconfiguredPosition.pool 1)
            (poolPrice unconfiguredPosition.pool) < 10)) :=
  claim_C10_unconfigured_pool_custom_rule getPoolConfigsForFilter
    unconfiguredPosition 1 1 rfl (by decide)

/-! ### Optimal-ratio calculation (`calculateOptimalRatioData`)

Mirrors the fixed calculation logic: total value in token2 terms, then the
balanced allocation solving `opt1 * marketPrice + opt1 * liquidityRatio =
totalValueInToken2`. -/

/-- Total portfolio value in token2 terms:
`availableToken1 * marketPrice + token2Balance`. -/
def totalValueInToken2 (availableToken1 marketPrice token2Balance : ℚ) : ℚ :=
  availableToken1 * marketPrice + token2Balance

/-- Optimal token1 allocation:
`totalValueInToken2 / (marketPrice + liquidityRatio)`. -/
def optimalToken1Amount
    (marketPrice liquidityRatio availableToken1 token2Balance : ℚ) : ℚ :=
  totalValueInToken2 availableToken1 marketPrice token2Balance /
    (marketPrice + liquidityRatio)

/-- Optimal token2 allocation: `optimalToken1Amount * liquidityRatio`. -/
def optimalToken2Amount
    (marketPrice liquidityRatio availableToken1 token2Balance : ℚ) : ℚ :=
  optimalToken1Amount marketPrice liquidityRatio availableToken1 token2Balance *
    liquidityRatio

/-- C4: the ratio calculator's outputs satisfy the two balance identities
exactly over the rationals whenever `marketPrice + liquidityRatio` is
nonzero: the token2 allocation is the token1 allocation scaled by the
liquidity ratio, and the two allocations together are worth exactly the
total portfolio value in token2 terms. -/
theorem claim_C4_ratio_identities
    (marketPrice liquidityRatio availableToken1 token2Balance : ℚ)
    (h : marketPrice + liquidityRatio ≠ 0) :
    totalValueInToken2 availableToken1 marketPrice token2Balance =
        availableToken1 * marketPrice + token2Balance ∧
      optimalToken1Amount marketPrice liquidityRatio availableToken1 token2Balance =
        totalValueInToken2 availableToken1 marketPrice token2Balance /
          (marketPrice + liquidityRatio) ∧
      optimalToken1Amount marketPrice liquidityRatio availableToken1 token2Balance *
          liquidityRatio =
        optimalToken2Amount marketPrice liquidityRatio availableToken1 token2Balance ∧
      optimalToken1Amount marketPrice liquidityRatio availableToken1 token2Balance *
          marketPrice +
          optimalToken2Amount marketPrice liquidityRatio availableToken1 token2Balance =
        totalValueInToken2 availableToken1 marketPrice token2Balance := by
  refine ⟨rfl, rfl, rfl, ?_⟩
  unfold optimalToken2Amount optimalToken1Amount
  field_simp
  ring

/-- C4 witness: the identities at `marketPrice = 2`, `liquidityRatio = 1`,
`availableToken1 = 3`, `token2Balance = 4`. -/
theorem claim_C4_ratio_identities_witness :
    totalValueInToken2 3 2 4 = 3 * 2 + 4 ∧
      optimalToken1Amount 2 1 3 4 = totalValueInToken2 3 2 4 / (2 + 1) ∧
      optimalToken1Amount 2 1 3 4 * 1 = optimalToken2Amount 2 1 3 4 ∧
      optimalToken1Amount 2 1 3 4 * 2 + optimalToken2Amount 2 1 3 4 =
        totalValueInToken2 3 2 4 :=
  claim_C4_ratio_identities 2 1 3 4 (by norm_num)

/-! ### Tightest tick range (`calculateOptimalRatioData`, `rangePercent == null`)

`tickLower = Math.floor((currentTick - tickSpacing) / tickSpacing) * tickSpacing`,
`tickUpper = Math.ceil((currentTick + tickSpacing) / tickSpacing) * tickSpacing`,
with real division, so `Math.floor`/`Math.ceil` are `Int.floor`/`Int.ceil`
of the rational quotient. -/

/-- Lower bound of the tightest tick range. -/
def tightestTickLower (currentTick tickSpacing : ℤ) : ℤ :=
  ⌊((currentTick : ℚ) - (tickSpacing : ℚ)) / (tickSpacing : ℚ)⌋ * tickSpacing

/-- Upper bound of the tightest tick range. -/
def tightestTickUpper (currentTick tickSpacing : ℤ) : ℤ :=
  ⌈((currentTick : ℚ) + (tickSpacing : ℚ)) / (tickSpacing : ℚ)⌉ * tickSpacing

/-- C5: the tightest range at `currentTick = 500`, `tickSpacing = 60` is
exactly `[420, 600]`, and for every tick and positive spacing the computed
bounds are strictly ordered and aligned to the tick spacing. -/
theorem claim_C5_tightest_range
    (currentTick tickSpacing : ℤ) (hs : 0 < tickSpacing) :
    (tightestTickLower 500 60 = 420 ∧ tightestTickUpper 500 60 = 600) ∧
      tightestTickLower currentTick tickSpacing <
        tightestTickUpper currentTick tickSpacing ∧
      tickSpacing ∣ tightestTickLower currentTick tickSpacing ∧
      tickSpacing ∣ tightestTickUpper currentTick tickSpacing := by
  have hsQ : (0 : ℚ) < (tickSpacing : ℚ) := by exact_mod_cast hs
  have hsne : (tickSpacing : ℚ) ≠ 0 := ne_of_gt hsQ
  have hlow : (tightestTickLower currentTick tickSpacing : ℚ) ≤
      (currentTick : ℚ) - tickSpacing := by
    rw [tightestTickLower]
    push_cast
    calc (⌊((currentTick : ℚ) - tickSpacing) / tickSpacing⌋ : ℚ) * tickSpacing
        ≤ (((currentTick : ℚ) - tickSpacing) / tickSpacing) * tickSpacing := by
          exact mul_le_mul_of_nonneg_right (Int.floor_le _) (le_of_lt hsQ)
      _ = (currentTick : ℚ) - tickSpacing := div_mul_cancel₀ _ hsne
  have hupp : (currentTick : ℚ) + tickSpacing ≤
      (tightestTickUpper currentTick tickSpacing : ℚ) := by
    rw [tightestTickUpper]
    push_cast
    calc (currentTick : ℚ) + tickSpacing
        = (((currentTick : ℚ) + tickSpacing) / tickSpacing) * tickSpacing :=
          (div_mul_cancel₀ _ hsne).symm
      _ ≤ (⌈((currentTick : ℚ) + tickSpacing) / tickSpacing⌉ : ℚ) * tickSpacing := by
          exact mul_le_mul_of_nonneg_right (Int.le_ceil _) (le_of_lt hsQ)
  refine ⟨⟨?_, ?_⟩, ?_, ⟨_, mul_comm _ _⟩, ⟨_, mul_comm _ _⟩⟩
  · rw [tightestTickLower]
    norm_num
  · rw [tightestTickUpper]
    have hc : ⌈(((500 : ℤ) : ℚ) + ((60 : ℤ) : ℚ)) / ((60 : ℤ) : ℚ)⌉ = (10 : ℤ) := by
      rw [Int.ceil_eq_iff]
      norm_num
    rw [hc]
    norm_num
  · have : (tightestTickLower currentTick tickSpacing : ℚ) <
        (tightestTickUpper currentTick tickSpacing : ℚ) := by
      calc (tightestTickLower currentTick tickSpacing : ℚ)
          ≤ (currentTick : ℚ) - tickSpacing := hlow
        _ < (currentTick : ℚ) + tickSpacing := by linarith
        _ ≤ _ := hupp
    exact_mod_cast this
  
/-- C5 witness: the bounds at `currentTick = 500`, `tickSpacing = 60`. -/
theorem claim_C5_tightest_range_witness :
    (tightestTickLower 500 60 = 420 ∧ tightestTickUpper 500 60 = 600) ∧
      tightestTickLower 500 60 < tightestTickUpper 500 60 ∧
      (60 : ℤ) ∣ tightestTickLower 500 60 ∧ (60 : ℤ) ∣ tightestTickUpper 500 60 :=
  claim_C5_tightest_range 500 60 (by norm_num)

/-! ### Transaction dedup cooldown (`executeTransaction.ts`)

The executor keeps a module-level map from a transaction signature
`sender_function_arguments` to the submission timestamp.  On each call it
first evicts entries older than the cooldown, then, if the same signature
was submitted less than `TRANSACTION_COOLDOWN` ms ago, sleeps for
`TRANSACTION_COOLDOWN - (now - last)` ms before building and submitting,
and finally records the signature.  We model timestamps as naturals and
return the time at which the transaction is actually built (after any
dedup delay) on the success path. -/

/-- Cooldown in milliseconds (`TRANSACTION_COOLDOWN = 30000`). -/
def TRANSACTION_COOLDOWN : ℕ := 30000

/-- The `recentTransactions` map, as an association list
(signature, timestamp). -/
abbrev RecentTransactions := List (String × ℕ)

/-- Eviction of stale entries (`cleanupOldTransactions`): drop every entry
with `now - timestamp > TRANSACTION_COOLDOWN`. -/
def cleanupOldTransactions (m : RecentTransactions) (now : ℕ) :
    RecentTransactions :=
  m.filter fun e => ¬ (now - e.2 > TRANSACTION_COOLDOWN)

/-- Lookup of a signature (`recentTransactions.get(txSignature)`). -/
def lookupRecent (m : RecentTransactions) (sig : String) : Option ℕ :=
  (m.find? fun e => e.1 == sig).map fun e => e.2

/-- Recording a submission (`recentTransactions.set(txSignature, now)`):
replaces any existing entry for the signature. -/
def setRecent (m : RecentTransactions) (sig : String) (now : ℕ) :
    RecentTransactions :=
  (sig, now) :: m.filter fun e => ¬ (e.1 == sig)

/-- Success path of `executeTransaction`, restricted to its dedup timing:
returns the time at which the transaction is built (arrival time, or the
end of the previous submission's cooldown when inside it) together with
the updated map. -/
def executeTransactionTiming (m : RecentTransactions) (sig : String)
    (now : ℕ) : ℕ × RecentTransactions :=
  let m1 := cleanupOldTransactions m now
  let buildTime :=
    match lookupRecent m1 sig with
    | some last =>
      if now - last < TRANSACTION_COOLDOWN then last + TRANSACTION_COOLDOWN
      else now
    | none => now
  (buildTime, setRecent m1 sig now)

/-- C6: submitting the same signature twice, the second arrival falling
inside the first submission's 30-second cooldown window, builds the first
transaction immediately and delays the second build to the exact end of
the cooldown — so exactly one transaction is built strictly inside the
window `[t0, t0 + 30000)`. -/
theorem claim_C6_dedup_cooldown (sig : String) (t0 t1 : ℕ)
    (h01 : t0 ≤ t1) (h1 : t1 < t0 + TRANSACTION_COOLDOWN) :
    (executeTransactionTiming [] sig t0).1 = t0 ∧
      (executeTransactionTiming
        (executeTransactionTiming [] sig t0).2 sig t1).1 =
        t0 + TRANSACTION_COOLDOWN ∧
      ¬ ((executeTransactionTiming
          (executeTransactionTiming [] sig t0).2 sig t1).1 <
        t0 + TRANSACTION_COOLDOWN) := by
  have hC : TRANSACTION_COOLDOWN = 30000 := rfl
  have hfirst : executeTransactionTiming [] sig t0 = (t0, [(sig, t0)]) := by
    simp [executeTransactionTiming, cleanupOldTransactions, lookupRecent,
      setRecent]
  have hcond : ¬ (t1 - t0 > TRANSACTION_COOLDOWN) := by omega
  have hkeep : cleanupOldTransactions [(sig, t0)] t1 = [(sig, t0)] := by
    simp only [cleanupOldTransactions, List.filter_cons, List.filter_nil]
    rw [if_pos (by simpa using hcond)]
  have hsecond : (executeTransactionTiming [(sig, t0)] sig t1).1 =
      t0 + TRANSACTION_COOLDOWN := by
    simp only [executeTransactionTiming, hkeep, lookupRecent, List.find?,
      beq_self_eq_true, Option.map_some']
    rw [if_pos (by omega)]
  rw [hfirst]
  exact ⟨rfl, hsecond, by rw [hsecond]; omega⟩

/-- C6 witness: the two-submission scenario at `t0 = 1000`, `t1 = 20000`. -/
theorem claim_C6_dedup_cooldown_witness :
    (executeTransactionTiming [] "sender_fn_args" 1000).1 = 1000 ∧
      (executeTransactionTiming
        (executeTransactionTiming [] "sender_fn_args" 1000).2
        "sender_fn_args" 20000).1 = 1000 + TRANSACTION_COOLDOWN ∧
      ¬ ((executeTransactionTiming
          (executeTransactionTiming [] "sender_fn_args" 1000).2
          "sender_fn_args" 20000).1 < 1000 + TRANSACTION_COOLDOWN) :=
  claim_C6_dedup_cooldown "sender_fn_args" 1000 20000 (by norm_num)
    (by norm_num [TRANSACTION_COOLDOWN])

/-! ### Rebalancing orchestrator (`executeRebalancing`)

The orchestrator builds a result record up front, mutates it as steps
succeed (remove -> ratio analysis -> optional swap -> settlement re-read ->
safety gate -> create -> optional top-up) inside one big `try`, and on any
thrown error the `catch` stamps `success = false` and the error string on
the partially-filled record and returns it (never rethrows).  Each
remote step's outcome is supplied as input data. -/

/-- Outcome of one `executeTransaction` call. -/
inductive StepResult where
  | ok (transactionHash : String)
  | failed (error : String)
deriving DecidableEq, Repr

/-- A swap recommendation as carried by the ratio data (present exactly
when `swapAmount && swapAmountRaw && swapFromToken && swapToToken` are all
set). -/
structure SwapRecommendation where
  swapFromSymbol : String
  swapToSymbol : String
  swapAmountRaw : ℤ
deriving DecidableEq, Repr

/-- Ratio data returned by `generateRatioResponse`, reduced to the field
the orchestrator's control flow branches on. -/
structure RatioResult where
  swap : Option SwapRecommendation
deriving DecidableEq, Repr

/-- The remote outcomes a single `executeRebalancing` run can observe. -/
structure OrchestrationEnv where
  removeResult : StepResult
  ratioResult : Option RatioResult
  swapResult : StepResult
  finalRatioResult : Option RatioResult
  safetyGateTrips : Bool
  createResult : StepResult
  addLiquidityHashes : Option (List String)
deriving DecidableEq, Repr

/-- The `result.details` record of `executeRebalancing`. -/
structure RebalanceDetails where
  positionRemoved : Bool
  swapExecuted : Bool
  newPositionCreated : Bool
  additionalLiquidityAdded : Bool
  transactionHashes : List String
  swapDetails : List (String × String)
  error : Option String
deriving DecidableEq, Repr

/-- The structured outcome of `executeRebalancing`. -/
structure RebalanceExecutionResult where
  success : Bool
  details : RebalanceDetails
deriving DecidableEq, Repr

/-- The freshly initialised result record. -/
def emptyDetails : RebalanceDetails := ⟨false, false, false, false, [], [], none⟩

/-- The `catch` block: mark failure and record the error on the
partially-filled details, returning (not throwing) the result. -/
def rebalanceFailure (d : RebalanceDetails) (e : String) :
    RebalanceExecutionResult :=
  ⟨false, { d with error := some e }⟩

/-- The orchestrator `executeRebalancing` (success/failure skeleton):
`isPositionCreation` models `objectId === 'CREATE_NEW'`, which skips the
removal step. -/
def executeRebalancing (isPositionCreation : Bool) (env : OrchestrationEnv) :
    RebalanceExecutionResult :=
  let step1 : Except RebalanceExecutionResult RebalanceDetails :=
    if isPositionCreation then .ok emptyDetails
    else
      match env.removeResult with
      | .failed e => .error (rebalanceFailure emptyDetails e)
      | .ok h =>
        .ok { emptyDetails with positionRemoved := true, transactionHashes := [h] }
  match step1 with
  | .error r => r
  | .ok d1 =>
    match env.ratioResult with
    | none => rebalanceFailure d1 "Error: Failed to get ratio data"
    | some ratio =>
      let step2 : Except RebalanceExecutionResult RebalanceDetails :=
        match ratio.swap with
        | none => .ok d1
        | some sw =>
          match env.swapResult with
          | .failed e => .error (rebalanceFailure d1 e)
          | .ok h =>
            .ok { d1 with
              swapExecuted := true
              transactionHashes := d1.transactionHashes ++ [h]
              swapDetails := d1.swapDetails ++ [(sw.swapFromSymbol, sw.swapToSymbol)] }
      match step2 with
      | .error r => r
      | .ok d2 =>
        match env.finalRatioResult with
        | none => rebalanceFailure d2 "Error: Failed to get final ratio data"
        | some _ =>
          if env.safetyGateTrips then
            rebalanceFailure d2
              "Error: Cannot create position: both token balances are extremely low"
          else
            match env.createResult with
            | .failed e => rebalanceFailure d2 e
            | .ok h =>
              let d3 := { d2 with
                newPositionCreated := true
                transactionHashes := d2.transactionHashes ++ [h] }
              let d4 :=
                match env.addLiquidityHashes with
                | some hs => { d3 with
                    additionalLiquidityAdded := true
                    transactionHashes := d3.transactionHashes ++ hs }
                | none => d3
              ⟨true, d4⟩

/-- C2: when removal succeeds and the subsequent swap fails, the
orchestrator returns a structured result with `success = false`, the
remove transaction's hash still recorded (the hash list is exactly that
one hash), and the swap error recorded — prior progress is preserved. -/
theorem claim_C2_partial_failure_preserved
    (env : OrchestrationEnv) (hash err : String) (sw : SwapRecommendation)
    (hremove : env.removeResult = .ok hash)
    (hratio : env.ratioResult = some ⟨some sw⟩)
    (hswap : env.swapResult = .failed err) :
    (executeRebalancing false env).success = false ∧
      (executeRebalancing false env).details.transactionHashes = [hash] ∧
      (executeRebalancing false env).details.transactionHashes.length = 1 ∧
      (executeRebalancing false env).details.error = some err ∧
      (executeRebalancing false env).details.positionRemoved = true := by
  have hrun : executeRebalancing false env =
      rebalanceFailure
        { emptyDetails with positionRemoved := true, transactionHashes := [hash] }
        err := by
    simp [executeRebalancing, hremove, hratio, hswap]
  rw [hrun]
  exact ⟨rfl, rfl, rfl, rfl, rfl⟩

/-- C2 witness: a concrete environment with a successful removal and a
failing swap. -/
theorem claim_C2_partial_failure_preserved_witness :
    (executeRebalancing false
        ⟨.ok "0xremove", some ⟨some ⟨"APT", "USDC", 100⟩⟩, .failed "swap sim error",
          none, false, .ok "0xcreate", none⟩).success = false ∧
      (executeRebalancing false
        ⟨.ok "0xremove", some ⟨some ⟨"APT", "USDC", 100⟩⟩, .failed "swap sim error",
          none, false, .ok "0xcreate", none⟩).details.transactionHashes = ["0xremove"] ∧
      (executeRebalancing false
        ⟨.ok "0xremove", some ⟨some ⟨"APT", "USDC", 100⟩⟩, .failed "swap sim error",
          none, false, .ok "0xcreate", none⟩).details.transactionHashes.length = 1 ∧
      (executeRebalancing false
        ⟨.ok "0xremove", some ⟨some ⟨"APT", "USDC", 100⟩⟩, .failed "swap sim error",
          none, false, .ok "0xcreate", none⟩).details.error = some "swap sim error" ∧
      (executeRebalancing false
        ⟨.ok "0xremove", some ⟨some ⟨"APT", "USDC", 100⟩⟩, .failed "swap sim error",
          none, false, .ok "0xcreate", none⟩).details.positionRemoved = true :=
  claim_C2_partial_failure_preserved _ "0xremove" "swap sim error"
    ⟨"APT", "USDC", 100⟩ rfl rfl rfl

/-! ### Batch controller (`executeRebalancingFlow`, automatic mode)

When the needs-rebalancing check returns flagged positions, the automatic
path loops over every one of them, one `executeRebalancing` attempt per
position, with no cap.  Only when it returns none does the flow look for
enabled pools with no position at all, and there it slices the candidate
list to `maxPoolsPerExecution = 1` creations per cycle, deferring the
rest to the next cycle. -/

/-- Hard cap on missing-pool position creations per cycle
(`const maxPoolsPerExecution = 1`). -/
def maxPoolsPerExecution : ℕ := 1

/-- The sliced list of missing-position pools actually processed this
cycle (`missingPositionPools.slice(0, maxPoolsPerExecution)`). -/
def missingPoolsToProcess (missingPositionPools : List String) : List String :=
  missingPositionPools.take maxPoolsPerExecution

/-- Missing-position pools deferred to the next cycle (the complement of
the slice). -/
def deferredMissingPools (missingPositionPools : List String) : List String :=
  missingPositionPools.drop maxPoolsPerExecution

/-- Number of position creations attempted in an automatic cycle: the
missing-pool path only runs when no flagged positions were found. -/
def autoCreationAttempts (inactivePositions missingPositionPools : List String) :
    ℕ :=
  if inactivePositions.isEmpty then
    (missingPoolsToProcess missingPositionPools).length
  else 0

/-- Number of rebalancing operations attempted in an automatic cycle: the
flow loops over every flagged position
(`for (const inactivePosition of rebalanceCheckResult.inactivePositions)`),
one `executeRebalancing` attempt each, with no cap. -/
def autoRebalanceAttempts (inactivePositions : List String) : ℕ :=
  inactivePositions.length

/-- C9 counterexample: there is no per-cycle cap on the total number of
operations attempted regardless of input — the rebalancing loop grows
linearly with the number of flagged positions. -/
theorem claim_C9_counterexample :
    ¬ ∃ cap : ℕ, ∀ inactivePositions missingPositionPools : List String,
      autoRebalanceAttempts inactivePositions +
          autoCreationAttempts inactivePositions missingPositionPools ≤ cap := by
  rintro ⟨cap, h⟩
  have h2 := h (List.replicate (cap + 1) "pos") []
  simp [autoRebalanceAttempts, autoCreationAttempts] at h2

/-- C9 (amended): in an automatic cycle the missing-pool creation path
attempts at most `maxPoolsPerExecution = 1` creations, the slice and the
deferred remainder exactly partition the candidate list, but the
rebalancing loop is uncapped: it attempts exactly one operation per
flagged position. -/
theorem claim_C9_per_cycle_caps
    (inactivePositions missingPositionPools : List String) :
    autoCreationAttempts inactivePositions missingPositionPools ≤
        maxPoolsPerExecution ∧
      autoRebalanceAttempts inactivePositions = inactivePositions.length ∧
      (inactivePositions.isEmpty = true →
        missingPoolsToProcess missingPositionPools ++
            deferredMissingPools missingPositionPools = missingPositionPools) := by
  refine ⟨?_, rfl, fun _ => List.take_append_drop _ _⟩
  unfold autoCreationAttempts missingPoolsToProcess maxPoolsPerExecution
  split_ifs
  · exact List.length_take_le 1 missingPositionPools
  · exact Nat.zero_le _

/-- C9 amended-claim witness: an empty flagged list and two candidate
pools — one creation attempted, one pool deferred. -/
theorem claim_C9_per_cycle_caps_witness :
    autoCreationAttempts [] ["poolA", "poolB"] ≤ maxPoolsPerExecution ∧
      autoRebalanceAttempts [] = ([] : List String).length ∧
      ((List.isEmpty ([] : List String)) = true →
        missingPoolsToProcess ["poolA", "poolB"] ++
            deferredMissingPools ["poolA", "poolB"] = ["poolA", "poolB"]) :=
  claim_C9_per_cycle_caps [] ["poolA", "poolB"]

/-! ### Allocation binary search (`getCreatePoolPayload`, createPool.ts)

The search walks a percentage of `availableToken1` over `[50, 99.9]` by
bisection, capped at 20 iterations, stopping when the bracket is within
0.1 percentage points.  Each candidate's raw amounts are rounded down to
the nearest 1000 minor units; the remote oracle
`sdk.Pool.estCurrencyBAmountFromA` (modelled as `est`, `none` = the call
threw, treated as infeasible) gives the required raw token2.  A candidate
becomes best-so-far only when its rounded required token2 fits in the
token2 balance.  If nothing was found an 80% fallback candidate is tried.
Afterwards the chosen raw amounts are re-validated against the raw
balances before the payload is produced. -/

/-- An allocation candidate's rounded raw amounts
(`bestToken1AmountRaw` / `bestToken2AmountRaw`). -/
structure CreateAlloc where
  token1AmountRaw : ℤ
  token2AmountRaw : ℤ
deriving DecidableEq, Repr

/-- Rounding a raw amount down to the nearest 1000 minor units
(`Math.floor(raw / 1000) * 1000`). -/
def roundTo1000 (raw : ℤ) : ℤ := ⌊(raw : ℚ) / 1000⌋ * 1000

/-- Evaluation of one candidate percentage.  Result:
`none` = the oracle call threw (search treats it as infeasible);
`some none` = infeasible (required token2 exceeds the balance);
`some (some alloc)` = feasible with the rounded raw amounts. -/
def createCandidate (est : ℤ → Option ℤ) (availableToken1 token2Balance : ℚ)
    (token1Decimals token2Decimals : ℕ) (pct : ℚ) :
    Option (Option CreateAlloc) :=
  let adjustedToken1Amount := availableToken1 * (pct / 100)
  let token1AmountRaw := ⌊adjustedToken1Amount * 10 ^ token1Decimals⌋
  let roundedToken1AmountRaw := roundTo1000 token1AmountRaw
  match est roundedToken1AmountRaw with
  | none => none
  | some requiredToken2Raw =>
    let roundedToken2AmountRaw := roundTo1000 requiredToken2Raw
    let roundedRequiredToken2 : ℚ :=
      (roundedToken2AmountRaw : ℚ) / 10 ^ token2Decimals
    if roundedRequiredToken2 ≤ token2Balance then
      some (some ⟨roundedToken1AmountRaw, roundedToken2AmountRaw⟩)
    else
      some none

/-- Convergence tolerance (0.1 percentage points). -/
def createSearchTolerance : ℚ := 0.1

/-- The bisection loop (`while iteration < maxIterations &&
(maxPercentage - minPercentage) > tolerance`); a feasible midpoint raises
the lower bound and becomes best-so-far, an infeasible or throwing
midpoint lowers the upper bound. -/
def createSearchLoop (est : ℤ → Option ℤ) (availableToken1 token2Balance : ℚ)
    (token1Decimals token2Decimals : ℕ) :
    ℕ → ℚ → ℚ → Option CreateAlloc → Option CreateAlloc
  | 0, _, _, best => best
  | fuel + 1, minPercentage, maxPercentage, best =>
    if maxPercentage - minPercentage > createSearchTolerance then
      let currentPercentage := (minPercentage + maxPercentage) / 2
      match createCandidate est availableToken1 token2Balance
        token1Decimals token2Decimals currentPercentage with
      | some (some alloc) =>
        createSearchLoop est availableToken1 token2Balance
          token1Decimals token2Decimals fuel currentPercentage maxPercentage
          (some alloc)
      | some none =>
        createSearchLoop est availableToken1 token2Balance
          token1Decimals token2Decimals fuel minPercentage currentPercentage best
      | none =>
        createSearchLoop est availableToken1 token2Balance
          token1Decimals token2Decimals fuel minPercentage currentPercentage best
    else best

/-- Iteration cap (`maxIterations = 20`). -/
def createSearchMaxIterations : ℕ := 20

/-- The complete allocation search: bisection from `[50, 99.9]`, then the
conservative 80% fallback if the bisection found nothing. -/
def createAllocSearch (est : ℤ → Option ℤ) (availableToken1 token2Balance : ℚ)
    (token1Decimals token2Decimals : ℕ) : Option CreateAlloc :=
  match createSearchLoop est availableToken1 token2Balance
    token1Decimals token2Decimals createSearchMaxIterations 50 99.9 none with
  | some alloc => some alloc
  | none =>
    match createCandidate est availableToken1 token2Balance
      token1Decimals token2Decimals 80 with
    | some (some alloc) => some alloc
    | _ => none

/-- Create-position payload parameters (the raw deposit amounts). -/
structure CreatePoolParams where
  currencyAAmount : ℤ
  currencyBAmount : ℤ
deriving DecidableEq, Repr

/-- The payload builder `getCreatePoolPayload`: pre-search minimum-balance
checks (0.001 token units), the allocation search, and the final
raw-balance re-validation before the payload is produced. -/
def getCreatePoolPayload (est : ℤ → Option ℤ)
    (availableToken1 token2Balance : ℚ)
    (token1Decimals token2Decimals : ℕ) : Except String CreatePoolParams :=
  if availableToken1 < 0.001 then
    .error "Insufficient token1 for position creation"
  else if token2Balance < 0.001 then
    .error "Insufficient token2 for position creation"
  else if availableToken1 ≤ 0 then
    .error "No token1 available for pool creation"
  else
    match createAllocSearch est availableToken1 token2Balance
      token1Decimals token2Decimals with
    | none => .error "No feasible allocation found"
    | some alloc =>
      let availableToken1Raw := ⌊availableToken1 * 10 ^ token1Decimals⌋
      let availableToken2Raw := ⌊token2Balance * 10 ^ token2Decimals⌋
      if alloc.token1AmountRaw > availableToken1Raw then
        .error "Insufficient token1 balance"
      else if alloc.token2AmountRaw > availableToken2Raw then
        .error "Insufficient token2 balance"
      else
        .ok ⟨alloc.token1AmountRaw, alloc.token2AmountRaw⟩

theorem createCandidate_sound (est : ℤ → Option ℤ)
    (availableToken1 token2Balance : ℚ) (d1 d2 : ℕ) (pct : ℚ)
    (alloc : CreateAlloc)
    (h : createCandidate est availableToken1 token2Balance d1 d2 pct =
      some (some alloc)) :
    (alloc.token2AmountRaw : ℚ) / 10 ^ d2 ≤ token2Balance ∧
      (1000 : ℤ) ∣ alloc.token1AmountRaw ∧ (1000 : ℤ) ∣ alloc.token2AmountRaw := by
  simp only [createCandidate] at h
  rcases hest : est (roundTo1000 ⌊availableToken1 * (pct / 100) * 10 ^ d1⌋) with
    _ | req2
  · rw [hest] at h
    exact absurd h (by simp)
  · rw [hest] at h
    dsimp only at h
    by_cases hfeas : ((roundTo1000 req2 : ℚ) / 10 ^ d2 ≤ token2Balance)
    · rw [if_pos hfeas] at h
      obtain rfl : alloc =
          ⟨roundTo1000 ⌊availableToken1 * (pct / 100) * 10 ^ d1⌋,
            roundTo1000 req2⟩ := by
        simpa [eq_comm] using h
      exact ⟨hfeas, ⟨_, mul_comm _ _⟩, ⟨_, mul_comm _ _⟩⟩
    · rw [if_neg hfeas] at h
      exact absurd h (by simp)

theorem createSearchLoop_sound (est : ℤ → Option ℤ)
    (availableToken1 token2Balance : ℚ) (d1 d2 : ℕ) (fuel : ℕ) :
    ∀ (minP maxP : ℚ) (best : Option CreateAlloc),
      (∀ alloc, best = some alloc →
        (alloc.token2AmountRaw : ℚ) / 10 ^ d2 ≤ token2Balance ∧
          (1000 : ℤ) ∣ alloc.token1AmountRaw ∧
          (1000 : ℤ) ∣ alloc.token2AmountRaw) →
      ∀ alloc,
        createSearchLoop est availableToken1 token2Balance d1 d2 fuel
            minP maxP best = some alloc →
          (alloc.token2AmountRaw : ℚ) / 10 ^ d2 ≤ token2Balance ∧
            (1000 : ℤ) ∣ alloc.token1AmountRaw ∧
            (1000 : ℤ) ∣ alloc.token2AmountRaw := by
  induction fuel with
  | zero =>
    intro minP maxP best hbest alloc h
    exact hbest alloc h
  | succ fuel ih =>
    intro minP maxP best hbest alloc h
    simp only [createSearchLoop] at h
    by_cases hgap : maxP - minP > createSearchTolerance
    · rw [if_pos hgap] at h
      rcases hcand : createCandidate est availableToken1 token2Balance d1 d2
          ((minP + maxP) / 2) with _ | cnd
      · rw [hcand] at h
        exact ih minP ((minP + maxP) / 2) best hbest alloc h
      · rcases cnd with _ | newAlloc
        · rw [hcand] at h
          exact ih minP ((minP + maxP) / 2) best hbest alloc h
        · rw [hcand] at h
          refine ih ((minP + maxP) / 2) maxP (some newAlloc) ?_ alloc h
          intro a ha
          obtain rfl : newAlloc = a := by simpa using ha
          exact createCandidate_sound est availableToken1 token2Balance d1 d2
            _ _ hcand
    · rw [if_neg hgap] at h
      exact hbest alloc h

theorem createAllocSearch_sound (est : ℤ → Option ℤ)
    (availableToken1 token2Balance : ℚ) (d1 d2 : ℕ) (alloc : CreateAlloc)
    (h : createAllocSearch est availableToken1 token2Balance d1 d2 =
      some alloc) :
    (alloc.token2AmountRaw : ℚ) / 10 ^ d2 ≤ token2Balance ∧
      (1000 : ℤ) ∣ alloc.token1AmountRaw ∧ (1000 : ℤ) ∣ alloc.token2AmountRaw := by
  unfold createAllocSearch at h
  rcases hloop : createSearchLoop est availableToken1 token2Balance d1 d2
      createSearchMaxIterations 50 99.9 none with _ | found
  · rw [hloop] at h
    rcases hfb : createCandidate est availableToken1 token2Balance d1 d2 80 with
      _ | cnd
    · rw [hfb] at h
      exact absurd h (by simp)
    · rcases cnd with _ | fbAlloc
      · rw [hfb] at h
        exact absurd h (by simp)
      · rw [hfb] at h
        obtain rfl : fbAlloc = alloc := by simpa using h
        exact createCandidate_sound est availableToken1 token2Balance d1 d2
          _ _ hfb
  · rw [hloop] at h
    obtain rfl : found = alloc := by simpa using h
    exact createSearchLoop_sound est availableToken1 token2Balance d1 d2
      createSearchMaxIterations 50 99.9 none (by simp) _ hloop

theorem getCreatePoolPayload_ok (est : ℤ → Option ℤ)
    (availableToken1 token2Balance : ℚ) (d1 d2 : ℕ) (p : CreatePoolParams)
    (hp : getCreatePoolPayload est availableToken1 token2Balance d1 d2 =
      .ok p) :
    ∃ alloc, createAllocSearch est availableToken1 token2Balance d1 d2 =
        some alloc ∧
      p = ⟨alloc.token1AmountRaw, alloc.token2AmountRaw⟩ ∧
      alloc.token1AmountRaw ≤ ⌊availableToken1 * 10 ^ d1⌋ ∧
      alloc.token2AmountRaw ≤ ⌊token2Balance * 10 ^ d2⌋ := by
  simp only [getCreatePoolPayload] at hp
  split_ifs at hp with h1 h2 h3
  rcases hsearch : createAllocSearch est availableToken1 token2Balance d1 d2
    with _ | alloc
  · rw [hsearch] at hp
    simp only [reduceCtorEq] at hp
  · rw [hsearch] at hp
    dsimp only at hp
    split_ifs at hp with g1 g2
    obtain rfl : p = ⟨alloc.token1AmountRaw, alloc.token2AmountRaw⟩ := by
      simpa [eq_comm] using hp
    exact ⟨alloc, rfl, rfl, le_of_not_lt g1, le_of_not_lt g2⟩

/-- C3: the allocation search is the `[50, 99.9]` bisection with fuel 20
followed by the 80% fallback (first conjunct, by definition, with
tolerance 0.1); any allocation it returns has raw amounts rounded down to
multiples of 1000 whose rounded required token2 fits in the token2
balance; consequently a successfully built payload never deposits more
token2 than the available balance. -/
theorem claim_C3_allocation_search (est : ℤ → Option ℤ)
    (availableToken1 token2Balance : ℚ) (d1 d2 : ℕ) :
    (createSearchMaxIterations = 20 ∧ createSearchTolerance = 0.1 ∧
      createAllocSearch est availableToken1 token2Balance d1 d2 =
        (match createSearchLoop est availableToken1 token2Balance d1 d2
          20 50 99.9 none with
        | some alloc => some alloc
        | none =>
          match createCandidate est availableToken1 token2Balance d1 d2 80 with
          | some (some alloc) => some alloc
          | _ => none)) ∧
      (∀ alloc, createAllocSearch est availableToken1 token2Balance d1 d2 =
          some alloc →
        (alloc.token2AmountRaw : ℚ) / 10 ^ d2 ≤ token2Balance ∧
          (1000 : ℤ) ∣ alloc.token1AmountRaw ∧
          (1000 : ℤ) ∣ alloc.token2AmountRaw) ∧
      (∀ p, getCreatePoolPayload est availableToken1 token2Balance d1 d2 =
          .ok p →
        (p.currencyBAmount : ℚ) / 10 ^ d2 ≤ token2Balance) := by
  refine ⟨⟨rfl, rfl, rfl⟩,
    fun alloc h =>
      createAllocSearch_sound est availableToken1 token2Balance d1 d2 alloc h,
    fun p hp => ?_⟩
  obtain ⟨alloc, hsearch, rfl, -, -⟩ :=
    getCreatePoolPayload_ok est availableToken1 token2Balance d1 d2 p hp
  exact (createAllocSearch_sound est availableToken1 token2Balance d1 d2
    alloc hsearch).1

/-- C3 witness: a linear oracle on concrete balances; the search returns
the allocation `(9000, 9000)` and the payload deposits it, with the
guarantees instantiated there. -/
theorem claim_C3_allocation_search_witness :
    ((9000 : ℤ) : ℚ) / 10 ^ 3 ≤ 50000 ∧
      (1000 : ℤ) ∣ (9000 : ℤ) ∧ (1000 : ℤ) ∣ (9000 : ℤ) :=
  (claim_C3_allocation_search (fun n => some n) 10 50000 3 3).2.1
    ⟨9000, 9000⟩
    (by norm_num [createAllocSearch, createSearchLoop, createCandidate,
      roundTo1000, createSearchTolerance, createSearchMaxIterations])

/-! ### Add-liquidity final amount validation (`executeAddLiquidity`)

After its own allocation search, the add-liquidity path (and only that
path) rejects allocations whose raw amounts are below the minimum viable
thresholds (`finalMinToken1Raw`/`finalMinToken2Raw`, 100000 raw units)
before building the add-liquidity transaction. -/

/-- Minimum viable raw token1 amount (`finalMinToken1Raw = 100000`). -/
def finalMinToken1Raw : ℤ := 100000

/-- Minimum viable raw token2 amount (`finalMinToken2Raw = 100000`). -/
def finalMinToken2Raw : ℤ := 100000

/-- The final amount validation of `executeAddLiquidity`: reject when
either best raw amount is below the minimum viable threshold, otherwise
pass the amounts through to the transaction builder. -/
def addLiquidityFinalValidation (bestToken1AmountRaw bestToken2AmountRaw : ℤ) :
    Except String (ℤ × ℤ) :=
  if bestToken1AmountRaw < finalMinToken1Raw then
    .error "Token1 amount too small"
  else if bestToken2AmountRaw < finalMinToken2Raw then
    .error "Token2 amount too small"
  else
    .ok (bestToken1AmountRaw, bestToken2AmountRaw)

/-- C8 counterexample: the create-position path builds a payload whose raw
amounts are 0 — below the code's own minimum viable threshold (100000 raw
units), and below any positive threshold — so no minimum-amount rejection
happens before building the create-position transaction.  (Input: oracle
that always answers 0, `availableToken1 = 0.001`, `token2Balance = 0.01`,
both tokens with 4 decimals.) -/
theorem claim_C8_counterexample :
    getCreatePoolPayload (fun _ => some 0) (1 / 1000) (1 / 100) 4 4 =
        .ok ⟨0, 0⟩ ∧
      (0 : ℤ) < finalMinToken1Raw ∧ (0 : ℤ) < finalMinToken2Raw := by
  refine ⟨?_, by norm_num [finalMinToken1Raw], by norm_num [finalMinToken2Raw]⟩
  norm_num [getCreatePoolPayload, createAllocSearch, createSearchLoop,
    createCandidate, roundTo1000, createSearchTolerance,
    createSearchMaxIterations]

/-- C8 (amended): after the allocation search the create-position path
re-validates the chosen raw amounts against the actual raw balances
(producing a payload only when both fit), while the minimum-viable-amount
rejection (100000 raw units) is performed by the add-liquidity path's
final validation, not by the create-position path. -/
theorem claim_C8_final_validations (est : ℤ → Option ℤ)
    (availableToken1 token2Balance : ℚ) (d1 d2 : ℕ) :
    (∀ p, getCreatePoolPayload est availableToken1 token2Balance d1 d2 =
        .ok p →
      p.currencyAAmount ≤ ⌊availableToken1 * 10 ^ d1⌋ ∧
        p.currencyBAmount ≤ ⌊token2Balance * 10 ^ d2⌋) ∧
    (∀ bestToken1AmountRaw bestToken2AmountRaw r,
      addLiquidityFinalValidation bestToken1AmountRaw bestToken2AmountRaw =
          .ok r →
        r = (bestToken1AmountRaw, bestToken2AmountRaw) ∧
          finalMinToken1Raw ≤ bestToken1AmountRaw ∧
          finalMinToken2Raw ≤ bestToken2AmountRaw) := by
  constructor
  · intro p hp
    obtain ⟨alloc, -, rfl, hle1, hle2⟩ :=
      getCreatePoolPayload_ok est availableToken1 token2Balance d1 d2 p hp
    exact ⟨hle1, hle2⟩
  · intro t1 t2 r hr
    unfold addLiquidityFinalValidation at hr
    split_ifs at hr with g1 g2
    obtain rfl : r = (t1, t2) := by simpa [eq_comm] using hr
    exact ⟨rfl, le_of_not_lt g1, le_of_not_lt g2⟩

/-- C8 amended-claim witness: the re-validation guarantee instantiated on
a concrete successful payload, and the add-liquidity validation passing at
exactly the thresholds. -/
theorem claim_C8_final_validations_witness :
    ((9000 : ℤ) ≤ ⌊(10 : ℚ) * 10 ^ 3⌋ ∧ (9000 : ℤ) ≤ ⌊(50000 : ℚ) * 10 ^ 3⌋) ∧
      ((100000 : ℤ), (100000 : ℤ)) = ((100000 : ℤ), (100000 : ℤ)) ∧
        finalMinToken1Raw ≤ (100000 : ℤ) ∧ finalMinToken2Raw ≤ (100000 : ℤ) :=
  ⟨(claim_C8_final_validations (fun n => some n) 10 50000 3 3).1 ⟨9000, 9000⟩
      (by norm_num [getCreatePoolPayload, createAllocSearch, createSearchLoop,
        createCandidate, roundTo1000, createSearchTolerance,
        createSearchMaxIterations]),
    (claim_C8_final_validations (fun n => some n) 10 50000 3 3).2 100000 100000
      (100000, 100000)
      (by norm_num [addLiquidityFinalValidation, finalMinToken1Raw,
        finalMinToken2Raw])⟩
